import Mathlib

/-!
Shallow embedding of the email-deliverability prober of
`src/server/services/emailValidator.py` (class `EmailValidator`), together
with theorems settling the specification claims about it.

Modelling conventions:
* Python `str` values are embedded as `List Char` (candidate addresses,
  domains, MX hostnames); fixed message literals kept as Lean `String`.
* The DNS resolver and the remote SMTP servers are external effects; they are
  embedded as explicit environment parameters (`DnsEnv`, `SmtpEnv`).
* Python code that can raise an uncaught exception is embedded with `Option`
  (`none` = an exception escapes).
* Machine integers do not overflow here (SMTP reply codes, MX preferences are
  small non-negative ints), so they are embedded as `Nat`.
-/

/-! ## Python string primitives used by the validator -/

/-- Characters stripped by Python's `str.strip()` with no argument
(ASCII whitespace: space, tab, newline, carriage return, vertical tab,
form feed). -/
def pyIsSpace (c : Char) : Bool :=
  c = ' ' || c = '\t' || c = '\n' || c = '\x0d' || c = '\x0b' || c = '\x0c'

/-- Embedding of Python `s.strip()`: drop leading and trailing whitespace. -/
def pyStrip (cs : List Char) : List Char :=
  ((cs.dropWhile pyIsSpace).reverse.dropWhile pyIsSpace).reverse

/-- Embedding of Python `s.lower()` on the ASCII range (the validator's
inputs are ASCII; `[A-Z]` maps to `[a-z]`, all other characters are kept). -/
def pyLower (cs : List Char) : List Char :=
  cs.map fun c => if c.isUpper then c.toLower else c

/-- Embedding of Python `s.rstrip('.')` (line 37 of the source): remove every
trailing `'.'`. -/
def rstripDots (cs : List Char) : List Char :=
  (cs.reverse.dropWhile (fun c => c = '.')).reverse

/-- First-separator split: `splitFirst sep cs = some (l, r)` when
`cs = l ++ sep :: r` and `sep ∉ l`; `none` when `sep ∉ cs`.  This is the
building block for Python's `s.split('@')`: `s.split('@')[0] = l` and
`s.split('@')[1] = r.takeWhile (· ≠ '@')`, and indexing `[1]` raises
`IndexError` exactly in the `none` case. -/
def splitFirst (sep : Char) : List Char → Option (List Char × List Char)
  | [] => none
  | c :: cs =>
    if c = sep then some ([], cs)
    else (splitFirst sep cs).map fun p => (c :: p.1, p.2)

theorem splitFirst_eq_some {sep : Char} {cs l r : List Char}
    (h : splitFirst sep cs = some (l, r)) : cs = l ++ sep :: r ∧ sep ∉ l := by
  induction cs generalizing l r with
  | nil => simp [splitFirst] at h
  | cons c cs ih =>
    by_cases hc : c = sep
    · subst hc
      simp [splitFirst] at h
      obtain ⟨rfl, rfl⟩ := h
      simp
    · rw [splitFirst] at h
      rw [if_neg hc] at h
      cases hsp : splitFirst sep cs with
      | none => rw [hsp] at h; simp at h
      | some p =>
        rw [hsp] at h
        simp at h
        obtain ⟨hl, hr⟩ := h
        obtain ⟨h1, h2⟩ := ih (show splitFirst sep cs = some (p.1, p.2) from hsp)
        subst hr
        rw [← hl]
        refine ⟨by simp [h1], ?_⟩
        simp [h2]
        exact fun hcs => hc hcs.symm

theorem splitFirst_of_decomp {sep : Char} {l r : List Char}
    (hl : sep ∉ l) : splitFirst sep (l ++ sep :: r) = some (l, r) := by
  induction l with
  | nil => simp [splitFirst]
  | cons c l ih =>
    have hc : c ≠ sep := fun h => hl (by simp [h])
    have hl' : sep ∉ l := fun h => hl (by simp [h])
    simp [splitFirst, hc, ih hl']

theorem splitFirst_eq_none {sep : Char} {cs : List Char}
    (h : splitFirst sep cs = none) : sep ∉ cs := by
  induction cs with
  | nil => simp
  | cons c cs ih =>
    by_cases hc : c = sep
    · simp [splitFirst, hc] at h
    · simp [splitFirst, hc] at h
      cases hsp : splitFirst sep cs with
      | none => simpa [hc, Ne.symm hc] using ih hsp
      | some p => rw [hsp] at h; simp at h

/-! ## Syntax Checker (`validate_syntax`, source lines 24-27)

The source applies `re.match(r'^[a-zA-Z0-9._%+-]+@[a-zA-Z0-9.-]+\.[a-zA-Z]{2,}$', email)`.
Note the Python semantics of `$` without `re.MULTILINE`: it matches at the end
of the string *and also just before one newline at the end of the string*, so
the regex additionally accepts inputs carrying a single trailing `'\n'`. -/

/-- Character class `[a-zA-Z0-9._%+-]` (the local part). -/
def isLocalChar (c : Char) : Bool :=
  c.isAlpha || c.isDigit || c = '.' || c = '_' || c = '%' || c = '+' || c = '-'

/-- Character class `[a-zA-Z0-9.-]` (the domain body). -/
def isDomChar (c : Char) : Bool :=
  c.isAlpha || c.isDigit || c = '.' || c = '-'

/-- Predicate "is not a dot", used to locate the last dot of the domain. -/
def notDot (c : Char) : Bool := c ≠ '.'

/-- Matcher for the part after the `@`: `[a-zA-Z0-9.-]+\.[a-zA-Z]{2,}`
anchored to the end.  The final run `[a-zA-Z]{2,}` contains no dot, so the
`\.` of the pattern is necessarily the *last* dot; the matcher splits there. -/
def domTail (rest : List Char) : Bool :=
  let rt := rest.reverse
  let t := rt.takeWhile notDot
  match rt.dropWhile notDot with
  | [] => false
  | _ :: d =>
    decide (2 ≤ t.length) && t.all Char.isAlpha && decide (d ≠ []) && d.all isDomChar

/-- Acceptance of `^[a-zA-Z0-9._%+-]+@[a-zA-Z0-9.-]+\.[a-zA-Z]{2,}` anchored
at the true end of the input (no trailing-newline allowance yet).  The classes
exclude `'@'`, so the pattern's `@` is necessarily the first `@`. -/
def regexCore (cs : List Char) : Bool :=
  match splitFirst '@' cs with
  | none => false
  | some (l, rest) => decide (l ≠ []) && l.all isLocalChar && domTail rest

/-- Embedding of `validate_syntax` (truthiness of the `re.match`): the core
pattern, or the core pattern followed by one trailing newline (Python `$`). -/
def validate_syntax (cs : List Char) : Bool :=
  regexCore cs ||
    (cs.getLast? = some '\n' && regexCore cs.dropLast)

/-- Modelled from the spec's words (§4.1 / claim C5): the strings "of the form
local `@` domain with local drawn from `[A-Za-z0-9._%+-]+`, domain from
`[A-Za-z0-9.-]+`, and a final label of two or more letters".  Used as the
comparison point for the refinement claim C5; `validate_syntax` itself is the
embedding of the source. -/
def SpecSyntaxForm (cs : List Char) : Prop :=
  ∃ l d t : List Char,
    cs = l ++ '@' :: (d ++ '.' :: t) ∧
    l ≠ [] ∧ l.all isLocalChar = true ∧
    d ≠ [] ∧ d.all isDomChar = true ∧
    2 ≤ t.length ∧ t.all Char.isAlpha = true

/-! ## Equivalence of the matcher with the pattern's language (for C5) -/

theorem takeWhile_append_stop {p : Char → Bool} {xs ys : List Char} {y : Char}
    (hxs : ∀ x ∈ xs, p x = true) (hy : p y = false) :
    (xs ++ y :: ys).takeWhile p = xs := by
  induction xs with
  | nil => simp [List.takeWhile_cons, hy]
  | cons a xs ih =>
    have ha : p a = true := hxs a (by simp)
    simp only [List.cons_append, List.takeWhile_cons, ha, if_true]
    rw [ih fun x hx => hxs x (by simp [hx])]

theorem dropWhile_append_stop {p : Char → Bool} {xs ys : List Char} {y : Char}
    (hxs : ∀ x ∈ xs, p x = true) (hy : p y = false) :
    (xs ++ y :: ys).dropWhile p = y :: ys := by
  induction xs with
  | nil => simp [List.dropWhile_cons, hy]
  | cons a xs ih =>
    have ha : p a = true := hxs a (by simp)
    simp only [List.cons_append, List.dropWhile_cons, ha, if_true]
    exact ih fun x hx => hxs x (by simp [hx])

theorem dropWhile_head_false {p : Char → Bool} {l xs : List Char} {x : Char}
    (h : l.dropWhile p = x :: xs) : p x = false := by
  induction l with
  | nil => simp [List.dropWhile] at h
  | cons a l ih =>
    by_cases ha : p a = true
    · rw [List.dropWhile_cons, if_pos ha] at h
      exact ih h
    · rw [List.dropWhile_cons, if_neg ha] at h
      cases h
      exact Bool.not_eq_true _ ▸ Bool.of_not_eq_true ha

theorem isAlpha_notDot {c : Char} (h : c.isAlpha = true) : notDot c = true := by
  simp only [notDot, ne_eq, decide_eq_true_eq]
  rintro rfl
  exact absurd h (by decide)

theorem regexCore_iff (cs : List Char) : regexCore cs = true ↔ SpecSyntaxForm cs := by
  constructor
  · intro h
    rw [regexCore] at h
    cases hsp : splitFirst '@' cs with
    | none => rw [hsp] at h; cases h
    | some p =>
      obtain ⟨l, rest⟩ := p
      rw [hsp] at h
      simp only [Bool.and_eq_true, decide_eq_true_eq] at h
      obtain ⟨⟨hl, hlall⟩, hdt⟩ := h
      obtain ⟨hcs, -⟩ := splitFirst_eq_some hsp
      rw [domTail] at hdt
      cases hdw : rest.reverse.dropWhile notDot with
      | nil => rw [hdw] at hdt; cases hdt
      | cons x d =>
        rw [hdw] at hdt
        simp only [Bool.and_eq_true, decide_eq_true_eq] at hdt
        obtain ⟨⟨⟨htlen, htall⟩, hd⟩, hdall⟩ := hdt
        have hx : x = '.' := by
          have := dropWhile_head_false hdw
          simpa [notDot] using this
        subst hx
        have hrt : rest.reverse.takeWhile notDot ++ '.' :: d = rest.reverse := by
          rw [← hdw]; exact List.takeWhile_append_dropWhile ..
        have hrest : rest = d.reverse ++ '.' :: (rest.reverse.takeWhile notDot).reverse := by
          have := congrArg List.reverse hrt
          simpa [List.reverse_append] using this.symm
        refine ⟨l, d.reverse, (rest.reverse.takeWhile notDot).reverse, ?_, hl, hlall, ?_, ?_, ?_, ?_⟩
        · rw [hcs]
          exact congrArg (fun z => l ++ '@' :: z) hrest
        · simp [hd]
        · simpa using hdall
        · simpa using htlen
        · simpa using htall
  · rintro ⟨l, d, t, hcs, hl, hlall, hd, hdall, htlen, htall⟩
    have hnotin : '@' ∉ l := by
      intro hmem
      have := List.all_eq_true.mp hlall _ hmem
      simp [isLocalChar] at this
    have hsp : splitFirst '@' cs = some (l, d ++ '.' :: t) := by
      rw [hcs]; exact splitFirst_of_decomp hnotin
    rw [regexCore, hsp]
    simp only [Bool.and_eq_true, decide_eq_true_eq]
    refine ⟨⟨hl, hlall⟩, ?_⟩
    have htnd : ∀ x ∈ t.reverse, notDot x = true := by
      intro x hx
      exact isAlpha_notDot (List.all_eq_true.mp htall _ (List.mem_reverse.mp hx))
    have hdot : notDot '.' = false := by simp [notDot]
    have hrev : (d ++ '.' :: t).reverse = t.reverse ++ '.' :: d.reverse := by
      simp [List.reverse_append]
    rw [domTail]
    simp only [hrev]
    rw [takeWhile_append_stop htnd hdot, dropWhile_append_stop htnd hdot]
    simp only [Bool.and_eq_true, decide_eq_true_eq]
    refine ⟨⟨⟨by simpa using htlen, by simpa using htall⟩, by simp [hd]⟩, by simpa using hdall⟩

/-- A string of the spec's form contains no newline: every position is drawn
from a character class that excludes `'\n'`. -/
theorem specSyntaxForm_no_newline {cs : List Char} (h : SpecSyntaxForm cs) :
    '\n' ∉ cs := by
  obtain ⟨l, d, t, hcs, -, hlall, -, hdall, -, htall⟩ := h
  rw [hcs]
  intro hmem
  simp only [List.mem_append, List.mem_cons] at hmem
  rcases hmem with hmem | hmem | hmem
  · have := List.all_eq_true.mp hlall _ hmem
    simp [isLocalChar] at this
  · cases hmem
  · rcases hmem with hmem | hmem
    · have := List.all_eq_true.mp hdall _ hmem
      simp [isDomChar] at this
    · rcases hmem with hmem | hmem
      · cases hmem
      · have := List.all_eq_true.mp htall _ hmem
        simp [Char.isAlpha, Char.isUpper, Char.isLower] at this

/-- C5 (amended): `validate_syntax` accepts exactly the strings of the claimed
form — local part from `[A-Za-z0-9._%+-]+`, then `@`, then a domain from
`[A-Za-z0-9.-]+`, a dot and a final label of two or more letters — *or such a
string followed by one trailing newline character*, the extra case coming
from Python's `$` matching just before a final newline.  In particular every
string without exactly one `@` in its newline-free content is rejected. -/
theorem validate_syntax_iff (cs : List Char) :
    validate_syntax cs = true ↔
      (SpecSyntaxForm cs ∨ ∃ cs', cs = cs' ++ ['\n'] ∧ SpecSyntaxForm cs') := by
  rw [ validate_syntax]
  simp only [Bool.or_eq_true, Bool.and_eq_true, decide_eq_true_eq]
  constructor
  · rintro (h | ⟨hlast, hcore⟩)
    · exact Or.inl ((regexCore_iff cs).mp h)
    · refine Or.inr ⟨cs.dropLast, ?_, (regexCore_iff _).mp hcore⟩
      exact (List.dropLast_append_getLast? _ hlast).symm
  · rintro (h | ⟨cs', rfl, h⟩)
    · exact Or.inl ((regexCore_iff cs).mpr h)
    · refine Or.inr ⟨?_, ?_⟩
      · simp
      · rw [List.dropLast_concat]
        exact (regexCore_iff cs').mpr h

/-! ## MX Resolver (`check_dns_mx`, source lines 29-44)

The resolver library is an external effect: `DnsEnv` maps a domain to `none`
when `dns.resolver.resolve(domain, 'MX')` raises (`NXDOMAIN`, `NoAnswer` when
the domain has no MX records, timeouts, `SERVFAIL`, ... — the source's
`except` clause catches them all, line 43), and to `some` of the answer's
`(preference, exchange)` pairs, in resolver order, otherwise.

Python's `sorted(mx_list, key=lambda x: x['priority'])` (line 41) is the
stable sort by priority.  It is embedded as an insertion sort that inserts
each element *before* the later-inserted equals; the three theorems below
(sortedness, per-priority filter preservation, membership) pin the embedding
to exactly the stable sort, which characterizes `sorted` uniquely. -/

/-- One MX answer record as built on source lines 35-38. -/
structure MxRecord where
  priority : Nat
  exchange : List Char
  deriving DecidableEq, Repr

abbrev DnsEnv := List Char → Option (List (Nat × List Char))

/-- Result dictionary of `check_dns_mx` (lines 39-44). -/
structure DnsResult where
  valid : Bool
  mx_records : List MxRecord
  deriving DecidableEq, Repr

def insertByPrio (a : MxRecord) : List MxRecord → List MxRecord
  | [] => [a]
  | b :: l => if a.priority ≤ b.priority then a :: b :: l else b :: insertByPrio a l

def sortByPrio : List MxRecord → List MxRecord
  | [] => []
  | a :: l => insertByPrio a (sortByPrio l)

/-- Embedding of `check_dns_mx`. -/
def check_dns_mx (denv : DnsEnv) (domain : List Char) : DnsResult :=
  match denv domain with
  | none => ⟨false, []⟩
  | some ans =>
    ⟨true, sortByPrio (ans.map fun pr => ⟨pr.1, rstripDots pr.2⟩)⟩

theorem mem_insertByPrio {a x : MxRecord} {l : List MxRecord}
    (h : x ∈ insertByPrio a l) : x = a ∨ x ∈ l := by
  induction l with
  | nil =>
    simp [insertByPrio] at h
    exact Or.inl h
  | cons b l ih =>
    rw [insertByPrio] at h
    by_cases hab : a.priority ≤ b.priority
    · rw [if_pos hab] at h
      simpa using h
    · rw [if_neg hab] at h
      rcases List.mem_cons.mp h with h | h
      · exact Or.inr (by simp [h])
      · rcases ih h with h | h
        · exact Or.inl h
        · exact Or.inr (by simp [h])

theorem mem_sortByPrio {x : MxRecord} {l : List MxRecord}
    (h : x ∈ sortByPrio l) : x ∈ l := by
  induction l with
  | nil => simp [sortByPrio] at h
  | cons a l ih =>
    rw [sortByPrio] at h
    rcases mem_insertByPrio h with h | h
    · simp [h]
    · simp [ih h]

theorem pairwise_insertByPrio {a : MxRecord} {l : List MxRecord}
    (h : l.Pairwise fun x y => x.priority ≤ y.priority) :
    (insertByPrio a l).Pairwise fun x y => x.priority ≤ y.priority := by
  induction l with
  | nil => simp [insertByPrio]
  | cons b l ih =>
    rw [insertByPrio]
    obtain ⟨hb, hl⟩ := List.pairwise_cons.mp h
    by_cases hab : a.priority ≤ b.priority
    · rw [if_pos hab]
      refine List.pairwise_cons.mpr ⟨?_, h⟩
      intro x hx
      rcases List.mem_cons.mp hx with rfl | hx
      · exact hab
      · exact le_trans hab (hb x hx)
    · rw [if_neg hab]
      refine List.pairwise_cons.mpr ⟨?_, ih hl⟩
      intro x hx
      rcases mem_insertByPrio hx with rfl | hx
      · exact le_of_not_le hab
      · exact hb x hx

theorem pairwise_sortByPrio (l : List MxRecord) :
    (sortByPrio l).Pairwise fun x y => x.priority ≤ y.priority := by
  induction l with
  | nil => simp [sortByPrio]
  | cons a l ih => exact pairwise_insertByPrio ih

/-- Stability of the insertion step, expressed per priority class. -/
theorem filter_insertByPrio (p : Nat) (a : MxRecord) (l : List MxRecord) :
    (insertByPrio a l).filter (fun m => m.priority == p) =
      if a.priority == p then a :: l.filter (fun m => m.priority == p)
      else l.filter (fun m => m.priority == p) := by
  induction l with
  | nil => simp [insertByPrio, List.filter_cons, beq_iff_eq]
  | cons b l ih =>
    rw [insertByPrio]
    by_cases hab : a.priority ≤ b.priority
    · rw [if_pos hab]
      by_cases hap : a.priority = p
      · simp [List.filter_cons, beq_iff_eq, hap]
      · simp [List.filter_cons, beq_iff_eq, hap]
    · rw [if_neg hab]
      have hlt : b.priority < a.priority := lt_of_not_le hab
      by_cases hap : a.priority = p
      · have hbp : ¬ b.priority = p := by omega
        simp [List.filter_cons, beq_iff_eq, ih, hap, hbp]
      · by_cases hbp : b.priority = p
        · simp [List.filter_cons, beq_iff_eq, ih, hap, hbp]
        · simp [List.filter_cons, beq_iff_eq, ih, hap, hbp]

/-- Stability of the embedded sort: inside each priority class the original
order is kept. -/
theorem filter_sortByPrio (p : Nat) (l : List MxRecord) :
    (sortByPrio l).filter (fun m => m.priority == p) =
      l.filter (fun m => m.priority == p) := by
  induction l with
  | nil => simp [sortByPrio]
  | cons a l ih =>
    rw [sortByPrio, filter_insertByPrio]
    by_cases hap : a.priority = p
    · simp [List.filter_cons, beq_iff_eq, hap, ih]
    · simp [List.filter_cons, beq_iff_eq, hap, ih]

/-- `rstrip('.')` leaves no trailing dot. -/
theorem rstripDots_no_trailing_dot (cs : List Char) :
    (rstripDots cs).getLast? ≠ some '.' := by
  rw [rstripDots]
  rw [List.getLast?_reverse]
  cases hdw : cs.reverse.dropWhile (fun c => c = '.') with
  | nil => simp
  | cons x xs =>
    have hx := dropWhile_head_false hdw
    simp only [hdw, List.head?_cons, ne_eq, Option.some.injEq]
    intro h
    rw [h] at hx
    simp at hx

/-! ## SMTP Probe Client (`check_smtp_deliverability`, source lines 46-104)

The remote servers are external effects.  Per attempted server the source
runs, inside one `try` block: `SMTP()` / `connect(host, 25)` / `helo` /
`mail('test@emailvalidator.com')` / branch on the MAIL reply / `rcpt(email)` /
`quit()` / branch on the RCPT reply.  `SmtpEnv` assigns each `(email, server)`
pair one observable behavior:

* `connectFail` — the TCP connection cannot be established (refused/timeout
  inside `connect`): no session is opened, the `except` clause advances to
  the next server;
* `failBeforeMail` — the connection is established but an exception (e.g. a
  timeout awaiting the HELO or MAIL reply) fires before a MAIL reply is
  obtained: a session was opened, the `except` clause advances;
* `replies mailCode none` — the MAIL command gets reply `mailCode`, and (when
  `mailCode = 250` so that RCPT is issued) an exception fires before the RCPT
  reply;
* `replies mailCode (some (code, msg)) quitOk` — the full exchange: MAIL gets
  `mailCode` and, when `mailCode = 250`, RCPT gets `(code, msg)`; `quitOk`
  tells whether the `quit()` of line 73 — which the source runs *before*
  branching on the RCPT code — completes.  When the server disconnects
  without answering QUIT, smtplib's `getreply`/`send` raise
  `SMTPServerDisconnected` into line 98's `except ... continue`, so the
  decisive RCPT reply is discarded and the loop advances to the next MX
  server.  (For a MAIL reply other than 250, line 68's `quit()` may equally
  raise, but the body ends in `continue` either way, so no flag is needed.)

Socket lifecycle, for the ghost trace: whenever an smtplib command fails
mid-session, the library closes the socket *before* raising —
`SMTP.getreply` and `SMTP.send` both call `self.close()` ahead of
`raise SMTPServerDisconnected` — and `quit()` closes it on success.  The
trace therefore records, per server, the loop iteration (`attempt`), a
successfully opened connection (`opened`), and the release of its socket
(`closed`: an executed `quit()` or the library's close-before-raise); the
trace is discarded by the un-instrumented entry points. -/

inductive ServerBehavior where
  | connectFail : ServerBehavior
  | failBeforeMail : ServerBehavior
  | replies (mailCode : Nat) (rcptReply : Option (Nat × String)) (quitOk : Bool) :
      ServerBehavior
  deriving DecidableEq, Repr

abbrev SmtpEnv := List Char → List Char → ServerBehavior

inductive ProbeEvent where
  | attempt (server : List Char) : ProbeEvent
  | opened (server : List Char) : ProbeEvent
  | closed (server : List Char) : ProbeEvent
  deriving DecidableEq, Repr

/-- The server an event belongs to. -/
def ProbeEvent.server : ProbeEvent → List Char
  | .attempt s => s
  | .opened s => s
  | .closed s => s

/-- Result dictionary of `check_smtp_deliverability`; each return site of the
source populates a subset of the keys, absent keys are `none`. -/
structure SmtpResult where
  valid : Bool
  reason : Option String
  mx_server : Option (List Char)
  smtp_code : Option Nat
  smtp_response : Option String
  deriving DecidableEq, Repr

/-- Return of line 49 (`mx_records` empty). -/
def noMxResult : SmtpResult := ⟨false, some "No MX records found", none, none, none⟩

/-- Return of lines 101-104 (all candidates exhausted). -/
def unreachableResult : SmtpResult :=
  ⟨false, some "Unable to connect to any SMTP server", none, none, none⟩

/-- Return of lines 76-80 (RCPT reply 250). -/
def acceptedResult (s : List Char) (msg : String) : SmtpResult :=
  ⟨true, none, some s, none, some msg⟩

/-- Return of lines 82-87 (RCPT reply 550). -/
def rejectedResult (s : List Char) : SmtpResult :=
  ⟨false, some "Email address does not exist", some s, some 550, none⟩

/-- Return of lines 89-94 (RCPT reply 451 or 452). -/
def tempFailResult (s : List Char) (code : Nat) : SmtpResult :=
  ⟨true, some "Temporary server issue", some s, some code, none⟩

/-- The `for mx_record in mx_records:` loop, lines 53-104, with the ghost
event trace.  An exception mid-session (`failBeforeMail`, `rcptReply = none`,
or `quitOk = false`) leaves the socket closed by smtplib's
close-before-raise, hence the `closed` event on those paths too; on the
`quitOk = false` path the RCPT code — decisive or not — is never dispatched,
because line 73's `quit()` raises before the `if` of line 75. -/
def probeLoop (senv : SmtpEnv) (email : List Char) :
    List MxRecord → List ProbeEvent × SmtpResult
  | [] => ([], unreachableResult)
  | mx :: rest =>
    let s := mx.exchange
    match senv email s with
    | .connectFail =>
      let p := probeLoop senv email rest
      (.attempt s :: p.1, p.2)
    | .failBeforeMail =>
      let p := probeLoop senv email rest
      (.attempt s :: .opened s :: .closed s :: p.1, p.2)
    | .replies mailCode rcptReply quitOk =>
      if mailCode = 250 then
        match rcptReply with
        | none =>
          let p := probeLoop senv email rest
          (.attempt s :: .opened s :: .closed s :: p.1, p.2)
        | some (code, msg) =>
          if quitOk then
            if code = 250 then
              ([.attempt s, .opened s, .closed s], acceptedResult s msg)
            else if code = 550 then
              ([.attempt s, .opened s, .closed s], rejectedResult s)
            else if code = 451 ∨ code = 452 then
              ([.attempt s, .opened s, .closed s], tempFailResult s code)
            else
              let p := probeLoop senv email rest
              (.attempt s :: .opened s :: .closed s :: p.1, p.2)
          else
            let p := probeLoop senv email rest
            (.attempt s :: .opened s :: .closed s :: p.1, p.2)
      else
        let p := probeLoop senv email rest
        (.attempt s :: .opened s :: .closed s :: p.1, p.2)

/-- Embedding of `check_smtp_deliverability` with the ghost trace.  The
trace-free result is `none` exactly when the uncaught
`domain = email.split('@')[1]` of line 51 raises `IndexError` (the email
contains no `'@'` while `mx_records` is non-empty). -/
def check_smtp_deliverabilityT (senv : SmtpEnv) (email : List Char)
    (mxs : List MxRecord) : List ProbeEvent × Option SmtpResult :=
  if mxs.isEmpty then ([], some noMxResult)
  else
    match splitFirst '@' email with
    | none => ([], none)
    | some _ =>
      let p := probeLoop senv email mxs
      (p.1, some p.2)

/-- Embedding of `check_smtp_deliverability` as the source exposes it. -/
def check_smtp_deliverability (senv : SmtpEnv) (email : List Char)
    (mxs : List MxRecord) : Option SmtpResult :=
  (check_smtp_deliverabilityT senv email mxs).2

/-- A server behavior is non-decisive when the loop body ends in `continue`:
a connection failure, an exception mid-session (including a failing QUIT
exchange after the RCPT reply), a MAIL reply other than 250, or a RCPT reply
outside {250, 550, 451, 452}. -/
def isNonDecisive : ServerBehavior → Bool
  | .connectFail => true
  | .failBeforeMail => true
  | .replies _ none _ => true
  | .replies mailCode (some (code, _)) quitOk =>
    if mailCode = 250 then
      !quitOk || !(code = 250 || code = 550 || code = 451 || code = 452)
    else true

/-- Spec §3's `ProbeOutcome`, recovered from the shape of the returned
dictionary (each return site has a distinct shape). -/
inductive ProbeOutcome where
  | accepted : ProbeOutcome
  | rejected : ProbeOutcome
  | temporaryFailure : ProbeOutcome
  | unreachable : ProbeOutcome
  deriving DecidableEq, Repr

/-- Classify a probe result dictionary as a `ProbeOutcome`. -/
def SmtpResult.outcome (r : SmtpResult) : ProbeOutcome :=
  if r.valid then
    if r.smtp_code.isSome then .temporaryFailure else .accepted
  else
    if r.smtp_code.isSome then .rejected else .unreachable

/-- Skipping a prefix of non-decisive servers: the loop's verdict over
`pre ++ l` is the verdict over `l`, and the events contributed by the prefix
all belong to servers of the prefix. -/
theorem probeLoop_skip (senv : SmtpEnv) (email : List Char)
    (pre l : List MxRecord)
    (h : ∀ mx ∈ pre, isNonDecisive (senv email mx.exchange) = true) :
    ∃ tr, probeLoop senv email (pre ++ l) =
        (tr ++ (probeLoop senv email l).1, (probeLoop senv email l).2) ∧
      ∀ e ∈ tr, e.server ∈ pre.map fun m => m.exchange := by
  induction pre with
  | nil => exact ⟨[], by simp, by simp⟩
  | cons mx pre ih =>
    obtain ⟨tr, htr, hmem⟩ := ih fun m hm => h m (by simp [hm])
    have hmx := h mx (by simp)
    have hstep : ∀ evs : List ProbeEvent,
        (∀ e ∈ evs, ProbeEvent.server e = mx.exchange) →
        probeLoop senv email (mx :: (pre ++ l)) =
          (evs ++ (probeLoop senv email (pre ++ l)).1,
           (probeLoop senv email (pre ++ l)).2) →
        ∃ tr', probeLoop senv email ((mx :: pre) ++ l) =
            (tr' ++ (probeLoop senv email l).1, (probeLoop senv email l).2) ∧
          ∀ e ∈ tr', e.server ∈ (mx :: pre).map fun m => m.exchange := by
      intro evs hevs heq
      refine ⟨evs ++ tr, ?_, ?_⟩
      · rw [List.cons_append, heq, htr]
        simp
      · intro e he
        rcases List.mem_append.mp he with he | he
        · simp [hevs e he]
        · simp only [List.map_cons, List.mem_cons]
          exact Or.inr (hmem e he)
    cases hb : senv email mx.exchange with
    | connectFail =>
      exact hstep [.attempt mx.exchange] (by simp [ProbeEvent.server])
        (by rw [List.cons_append, probeLoop]; simp [hb])
    | failBeforeMail =>
      exact hstep [.attempt mx.exchange, .opened mx.exchange, .closed mx.exchange]
        (by simp [ProbeEvent.server])
        (by rw [List.cons_append, probeLoop]; simp [hb])
    | replies mailCode rcptReply quitOk =>
      rw [hb] at hmx
      by_cases hmc : mailCode = 250
      · cases rcptReply with
        | none =>
          exact hstep [.attempt mx.exchange, .opened mx.exchange, .closed mx.exchange]
            (by simp [ProbeEvent.server])
            (by rw [List.cons_append, probeLoop]; simp [hb, hmc])
        | some cm =>
          obtain ⟨code, msg⟩ := cm
          rw [isNonDecisive] at hmx
          rw [if_pos hmc] at hmx
          cases hq : quitOk with
          | false =>
            exact hstep [.attempt mx.exchange, .opened mx.exchange, .closed mx.exchange]
              (by simp [ProbeEvent.server])
              (by rw [List.cons_append, probeLoop]; simp [hb, hmc, hq])
          | true =>
            rw [hq] at hmx
            simp only [Bool.not_true, Bool.false_or, Bool.not_eq_true',
              Bool.or_eq_false_iff, decide_eq_false_iff_not] at hmx
            obtain ⟨⟨⟨h250, h550⟩, h451⟩, h452⟩ := hmx
            refine hstep [.attempt mx.exchange, .opened mx.exchange, .closed mx.exchange]
              (by simp [ProbeEvent.server]) ?_
            rw [List.cons_append, probeLoop]
            simp [hb, hmc, hq, h250, h550, h451, h452]
      · cases rcptReply with
        | none =>
          exact hstep [.attempt mx.exchange, .opened mx.exchange, .closed mx.exchange]
            (by simp [ProbeEvent.server])
            (by rw [List.cons_append, probeLoop]; simp [hb, hmc])
        | some cm =>
          exact hstep [.attempt mx.exchange, .opened mx.exchange, .closed mx.exchange]
            (by simp [ProbeEvent.server])
            (by rw [List.cons_append, probeLoop]; simp [hb, hmc])

/-! ## Validation Orchestrator (`validate_email` / `validate_bulk`, lines 106-157)

The result dictionary is built on lines 110-119 with all keys present
(`email`, `valid`, the three `checks` booleans, `details`); the embedding
makes this structural.  `details` keys are set conditionally, so they are
`Option`s.  The dict key `'syntax'` is a Lean keyword; it is embedded as the
field `syntaxOk` (spec §3's name), likewise `dns ↦ dnsOk`, `smtp ↦ smtpOk`. -/

structure Checks where
  syntaxOk : Bool
  dnsOk : Bool
  smtpOk : Bool
  deriving DecidableEq, Repr

structure Details where
  syntax_error : Option String
  dns_error : Option String
  mx_records : Option (List MxRecord)
  smtp_error : Option String
  smtp : Option SmtpResult
  deriving DecidableEq, Repr

structure ValidationResult where
  email : List Char
  valid : Bool
  checks : Checks
  details : Details
  deriving DecidableEq, Repr

/-- Python `email.split('@')[1]` for a string containing an `'@'`: the
characters between the first `'@'` and the next `'@'` (or the end). -/
def emailDomain (cs : List Char) : List Char :=
  match splitFirst '@' cs with
  | none => []
  | some pr => pr.2.takeWhile fun c => c ≠ '@'

/-- Lines 142-148: fold the SMTP probe result into the record. -/
def assembleSmtp (email : List Char) (mxl : List MxRecord) (smtpR : SmtpResult) :
    ValidationResult :=
  if smtpR.valid then
    ⟨email, true, ⟨true, true, true⟩, ⟨none, none, some mxl, none, some smtpR⟩⟩
  else
    ⟨email, false, ⟨true, true, false⟩,
      ⟨none, none, some mxl, some (smtpR.reason.getD "SMTP check failed"), some smtpR⟩⟩

/-- Embedding of `validate_email`, instrumented with the SMTP ghost trace
(empty when the SMTP Probe Client is never invoked).  `none` embeds an
uncaught exception escaping `validate_email`; the `none` branches correspond
to the two `IndexError` sites (lines 129 and 51) and are proved unreachable
in `validateEmailT_total`. -/
def validateEmailT (denv : DnsEnv) (senv : SmtpEnv) (email0 : List Char) :
    Option (ValidationResult × List ProbeEvent) :=
  if validate_syntax (pyLower (pyStrip email0)) = true then
    match splitFirst '@' (pyLower (pyStrip email0)) with
    | none => none
    | some _ =>
      if (check_dns_mx denv (emailDomain (pyLower (pyStrip email0)))).valid = true then
        match check_smtp_deliverabilityT senv (pyLower (pyStrip email0))
            (check_dns_mx denv (emailDomain (pyLower (pyStrip email0)))).mx_records with
        | (_, none) => none
        | (tr, some smtpR) =>
          some (assembleSmtp (pyLower (pyStrip email0))
            (check_dns_mx denv (emailDomain (pyLower (pyStrip email0)))).mx_records smtpR, tr)
      else
        some (⟨pyLower (pyStrip email0), false, ⟨true, false, false⟩,
          ⟨none, some "No MX records found for domain", none, none, none⟩⟩, [])
  else
    some (⟨pyLower (pyStrip email0), false, ⟨false, false, false⟩,
      ⟨some "Invalid email format", none, none, none, none⟩⟩, [])

theorem regexCore_mem_at {cs : List Char} (h : regexCore cs = true) : '@' ∈ cs := by
  rw [regexCore] at h
  cases hsp : splitFirst '@' cs with
  | none => rw [hsp] at h; cases h
  | some p =>
    obtain ⟨hcs, -⟩ := @splitFirst_eq_some '@' cs p.1 p.2 (by rw [hsp])
    rw [hcs]; simp

theorem splitFirst_isSome_of_mem {sep : Char} {cs : List Char} (h : sep ∈ cs) :
    (splitFirst sep cs).isSome = true := by
  cases hsp : splitFirst sep cs with
  | none => exact absurd h (splitFirst_eq_none hsp)
  | some p => rfl

/-- A syntactically valid address contains an `'@'`, so `split('@')[1]`
cannot raise. -/
theorem validate_syntax_isSome_split {cs : List Char}
    (h : validate_syntax cs = true) : (splitFirst '@' cs).isSome = true := by
  rw [ validate_syntax] at h
  simp only [Bool.or_eq_true, Bool.and_eq_true, decide_eq_true_eq] at h
  rcases h with h | ⟨-, h⟩
  · exact splitFirst_isSome_of_mem (regexCore_mem_at h)
  · exact splitFirst_isSome_of_mem
      ((List.dropLast_sublist cs).subset (regexCore_mem_at h))

/-- C1 (amended): for every address containing an `'@'` and every non-empty
MX list, if the first MX server's RCPT TO reply code is 550 (the MAIL FROM
step having been accepted with 250, as required for RCPT to be issued) *and
the QUIT exchange that line 73 runs before dispatching on that code completes
without raising*, the probe returns the `Rejected` dictionary —
`valid = false`, code 550, that server recorded — and the event trace shows
no attempt on any subsequent MX server.  Without the QUIT proviso the claim
fails on the code: see `c1_counterexample`. -/
theorem c1_first_mx_550_rejected (senv : SmtpEnv) (email : List Char)
    (mx : MxRecord) (rest : List MxRecord) (msg : String)
    (hat : (splitFirst '@' email).isSome = true)
    (hb : senv email mx.exchange = .replies 250 (some (550, msg)) true) :
    check_smtp_deliverability senv email (mx :: rest) =
      some (rejectedResult mx.exchange) ∧
    (check_smtp_deliverabilityT senv email (mx :: rest)).1 =
      [.attempt mx.exchange, .opened mx.exchange, .closed mx.exchange] := by
  obtain ⟨p, hp⟩ := Option.isSome_iff_exists.mp hat
  have hloop : probeLoop senv email (mx :: rest) =
      ([.attempt mx.exchange, .opened mx.exchange, .closed mx.exchange],
        rejectedResult mx.exchange) := by
    rw [probeLoop]
    simp [hb]
  constructor
  · rw [check_smtp_deliverability, check_smtp_deliverabilityT]
    simp [hp, hloop]
  · rw [check_smtp_deliverabilityT]
    simp [hp, hloop]

/-- Witness for C1 at a concrete environment: one MX answering 550, a second
MX present but never attempted. -/
theorem c1_witness :
    check_smtp_deliverability (fun _ _ => .replies 250 (some (550, "unknown user")) true)
        ['a', '@', 'b', '.', 'c', 'o'] [⟨10, ['m', '1']⟩, ⟨20, ['m', '2']⟩] =
      some (rejectedResult ['m', '1']) ∧
    (check_smtp_deliverabilityT (fun _ _ => .replies 250 (some (550, "unknown user")) true)
        ['a', '@', 'b', '.', 'c', 'o'] [⟨10, ['m', '1']⟩, ⟨20, ['m', '2']⟩]).1 =
      [.attempt ['m', '1'], .opened ['m', '1'], .closed ['m', '1']] :=
  c1_first_mx_550_rejected (fun _ _ => .replies 250 (some (550, "unknown user")) true)
    ['a', '@', 'b', '.', 'c', 'o'] ⟨10, ['m', '1']⟩ [⟨20, ['m', '2']⟩]
    "unknown user" (by decide) rfl

/-- C1 counterexample: the first MX server's RCPT TO reply code *is* 550, but
the server hangs up before answering the QUIT that line 73 issues ahead of
the dispatch of line 75; smtplib's `getreply` then raises
`SMTPServerDisconnected` into the `except ... continue` of lines 98-99, the
550 is discarded, the probe attempts the second MX server and returns its
Accepted verdict — not Rejected, and a subsequent server was attempted. -/
theorem c1_counterexample :
    (fun _ s => if s = ['m', '1'] then ServerBehavior.replies 250 (some (550, "bye")) false
      else ServerBehavior.replies 250 (some (250, "ok")) true : SmtpEnv)
        ['a', '@', 'b', '.', 'c', 'o'] ['m', '1'] =
      ServerBehavior.replies 250 (some (550, "bye")) false ∧
    check_smtp_deliverability
        (fun _ s => if s = ['m', '1'] then ServerBehavior.replies 250 (some (550, "bye")) false
          else ServerBehavior.replies 250 (some (250, "ok")) true)
        ['a', '@', 'b', '.', 'c', 'o'] [⟨10, ['m', '1']⟩, ⟨20, ['m', '2']⟩] =
      some (acceptedResult ['m', '2'] "ok") ∧
    ProbeEvent.attempt ['m', '2'] ∈
      (check_smtp_deliverabilityT
        (fun _ s => if s = ['m', '1'] then ServerBehavior.replies 250 (some (550, "bye")) false
          else ServerBehavior.replies 250 (some (250, "ok")) true)
        ['a', '@', 'b', '.', 'c', 'o'] [⟨10, ['m', '1']⟩, ⟨20, ['m', '2']⟩]).1 := by
  decide

/-- C2 (amended): if the probe reaches a server (all earlier MX candidates
being non-decisive) whose RCPT TO reply is 451 or 452 *and whose QUIT
exchange then completes without raising*, the probe stops there — the trace
only mentions the earlier candidates and that server — and the validation
record carries `smtpOk = true` together with the distinguishing reason
`"Temporary server issue"` and the numeric code in `details.smtp` (a clean
`Accepted` instead has `reason = none`).  Without the QUIT proviso the claim
fails on the code: see `c2_counterexample`. -/
theorem c2_temporary_failure (denv : DnsEnv) (senv : SmtpEnv) (email0 : List Char)
    (pre post : List MxRecord) (mx : MxRecord) (code : Nat) (msg : String)
    (hsyn : validate_syntax (pyLower (pyStrip email0)) = true)
    (hdns : check_dns_mx denv (emailDomain (pyLower (pyStrip email0))) =
      ⟨true, pre ++ mx :: post⟩)
    (hpre : ∀ m ∈ pre, isNonDecisive (senv (pyLower (pyStrip email0)) m.exchange) = true)
    (hmx : senv (pyLower (pyStrip email0)) mx.exchange = .replies 250 (some (code, msg)) true)
    (hcode : code = 451 ∨ code = 452) :
    ∃ tr, validateEmailT denv senv email0 =
        some (⟨pyLower (pyStrip email0), true, ⟨true, true, true⟩,
          ⟨none, none, some (pre ++ mx :: post), none,
            some (tempFailResult mx.exchange code)⟩⟩, tr) ∧
      (tempFailResult mx.exchange code).valid = true ∧
      (tempFailResult mx.exchange code).reason = some "Temporary server issue" ∧
      (tempFailResult mx.exchange code).smtp_code = some code ∧
      ∀ e ∈ tr, e.server ∈ (pre.map fun m => m.exchange) ++ [mx.exchange] := by
  obtain ⟨pr, hsp⟩ := Option.isSome_iff_exists.mp (validate_syntax_isSome_split hsyn)
  have hmxloop : probeLoop senv (pyLower (pyStrip email0)) (mx :: post) =
      ([.attempt mx.exchange, .opened mx.exchange, .closed mx.exchange],
        tempFailResult mx.exchange code) := by
    rcases hcode with rfl | rfl <;>
      · rw [probeLoop]
        simp [hmx]
  obtain ⟨trpre, htr, hmem⟩ :=
    probeLoop_skip senv (pyLower (pyStrip email0)) pre (mx :: post) hpre
  have hsm : check_smtp_deliverabilityT senv (pyLower (pyStrip email0))
        (pre ++ mx :: post) =
      (trpre ++ [.attempt mx.exchange, .opened mx.exchange, .closed mx.exchange],
        some (tempFailResult mx.exchange code)) := by
    rw [check_smtp_deliverabilityT, if_neg (by simp), hsp]
    simp only [htr, hmxloop]
  have hval : validateEmailT denv senv email0 =
      some (⟨pyLower (pyStrip email0), true, ⟨true, true, true⟩,
        ⟨none, none, some (pre ++ mx :: post), none,
          some (tempFailResult mx.exchange code)⟩⟩,
        trpre ++ [.attempt mx.exchange, .opened mx.exchange, .closed mx.exchange]) := by
    rw [validateEmailT, if_pos hsyn, hsp]
    simp only [hdns, hsm, assembleSmtp, tempFailResult, if_pos]
  refine ⟨_, hval, rfl, rfl, rfl, ?_⟩
  intro e he
  rcases List.mem_append.mp he with he | he
  · exact List.mem_append.mpr (Or.inl (hmem e he))
  · refine List.mem_append.mpr (Or.inr ?_)
    simp only [List.mem_cons, List.mem_singleton] at he
    rcases he with rfl | rfl | rfl | he
    · simp [ProbeEvent.server]
    · simp [ProbeEvent.server]
    · simp [ProbeEvent.server]
    · cases he

/-- Witness for C2 at a concrete environment: first MX unreachable, second MX
replies 451 to RCPT, third MX present but never reached. -/
theorem c2_witness :
    ∃ tr, validateEmailT
        (fun _ => some [(5, ['s', '1']), (10, ['s', '2']), (20, ['s', '3'])])
        (fun _ s => if s = ['s', '1'] then .connectFail
          else if s = ['s', '2'] then .replies 250 (some (451, "try later")) true
          else .replies 250 (some (250, "ok")) true)
        ['a', '@', 'b', '.', 'c', 'o'] =
      some (⟨pyLower (pyStrip ['a', '@', 'b', '.', 'c', 'o']), true, ⟨true, true, true⟩,
        ⟨none, none, some ([⟨5, ['s', '1']⟩] ++ ⟨10, ['s', '2']⟩ :: [⟨20, ['s', '3']⟩]),
          none, some (tempFailResult ['s', '2'] 451)⟩⟩, tr) ∧
      (tempFailResult ['s', '2'] 451).valid = true ∧
      (tempFailResult ['s', '2'] 451).reason = some "Temporary server issue" ∧
      (tempFailResult ['s', '2'] 451).smtp_code = some 451 ∧
      ∀ e ∈ tr, e.server ∈ ([⟨5, ['s', '1']⟩] : List MxRecord).map (fun m => m.exchange) ++ [['s', '2']] :=
  c2_temporary_failure
    (fun _ => some [(5, ['s', '1']), (10, ['s', '2']), (20, ['s', '3'])])
    (fun _ s => if s = ['s', '1'] then .connectFail
      else if s = ['s', '2'] then .replies 250 (some (451, "try later")) true
      else .replies 250 (some (250, "ok")) true)
    ['a', '@', 'b', '.', 'c', 'o']
    [⟨5, ['s', '1']⟩] [⟨20, ['s', '3']⟩] ⟨10, ['s', '2']⟩ 451 "try later"
    (by decide) (by decide) (by decide) (by decide) (Or.inl rfl)

/-- C2 counterexample: the probed first server replies 451 to RCPT TO, but
hangs up before answering the QUIT of line 73; `quit()` raises into the
`except ... continue`, so the probe does *not* stop — it attempts the next
MX server — and, every candidate exhausted, the record ends with
`smtpOk = false` and the exhausted reason instead of `smtpOk = true` with
`"Temporary server issue"`. -/
theorem c2_counterexample :
    (fun _ s => if s = ['s', '1'] then ServerBehavior.replies 250 (some (451, "busy")) false
      else ServerBehavior.connectFail : SmtpEnv)
        ['a', '@', 'b', '.', 'c', 'o'] ['s', '1'] =
      ServerBehavior.replies 250 (some (451, "busy")) false ∧
    validateEmailT (fun _ => some [(10, ['s', '1']), (20, ['s', '2'])])
        (fun _ s => if s = ['s', '1'] then ServerBehavior.replies 250 (some (451, "busy")) false
          else ServerBehavior.connectFail)
        ['a', '@', 'b', '.', 'c', 'o'] =
      some (⟨['a', '@', 'b', '.', 'c', 'o'], false, ⟨true, true, false⟩,
        ⟨none, none, some [⟨10, ['s', '1']⟩, ⟨20, ['s', '2']⟩],
          some "Unable to connect to any SMTP server", some unreachableResult⟩⟩,
        [.attempt ['s', '1'], .opened ['s', '1'], .closed ['s', '1'],
          .attempt ['s', '2']]) := by
  decide

/-! ## Record-shape helpers for the orchestrator claims -/

theorem assembleSmtp_mx_records (e : List Char) (mxl : List MxRecord) (s : SmtpResult) :
    (assembleSmtp e mxl s).details.mx_records = some mxl := by
  rw [assembleSmtp]
  split <;> rfl

theorem assembleSmtp_smtp (e : List Char) (mxl : List MxRecord) (s : SmtpResult) :
    (assembleSmtp e mxl s).details.smtp = some s := by
  rw [assembleSmtp]
  split <;> rfl

theorem assembleSmtp_checks (e : List Char) (mxl : List MxRecord) (s : SmtpResult) :
    (assembleSmtp e mxl s).checks = ⟨true, true, s.valid⟩ := by
  rw [assembleSmtp]
  split
  · next h => rw [h]
  · next h => rw [Bool.not_eq_true] at h; rw [h]

theorem assembleSmtp_valid (e : List Char) (mxl : List MxRecord) (s : SmtpResult) :
    (assembleSmtp e mxl s).valid = s.valid := by
  rw [assembleSmtp]
  split
  · next h => rw [h]
  · next h => rw [Bool.not_eq_true] at h; rw [h]

/-- On a successful resolution the stored list is the stable sort of the
normalized answer. -/
theorem check_dns_mx_valid_some {denv : DnsEnv} {dom : List Char}
    (h : (check_dns_mx denv dom).valid = true) :
    ∃ ans, denv dom = some ans ∧
      (check_dns_mx denv dom).mx_records =
        sortByPrio (ans.map fun a => MxRecord.mk a.1 (rstripDots a.2)) := by
  cases hda : denv dom with
  | none => rw [check_dns_mx, hda] at h; cases h
  | some ans => exact ⟨ans, rfl, by rw [check_dns_mx, hda]⟩

/-- The three possible shapes of a record produced by `validateEmailT`:
syntax gate failed, DNS gate failed, or the SMTP probe ran. -/
theorem validateEmailT_shape (denv : DnsEnv) (senv : SmtpEnv) (email0 : List Char)
    (r : ValidationResult) (tr : List ProbeEvent)
    (hrun : validateEmailT denv senv email0 = some (r, tr)) :
    (r = ⟨pyLower (pyStrip email0), false, ⟨false, false, false⟩,
        ⟨some "Invalid email format", none, none, none, none⟩⟩ ∧ tr = []) ∨
    ((check_dns_mx denv (emailDomain (pyLower (pyStrip email0)))).valid = false ∧
      r = ⟨pyLower (pyStrip email0), false, ⟨true, false, false⟩,
        ⟨none, some "No MX records found for domain", none, none, none⟩⟩ ∧ tr = []) ∨
    ((check_dns_mx denv (emailDomain (pyLower (pyStrip email0)))).valid = true ∧
      ∃ smtpR, check_smtp_deliverabilityT senv (pyLower (pyStrip email0))
          (check_dns_mx denv (emailDomain (pyLower (pyStrip email0)))).mx_records =
        (tr, some smtpR) ∧
      r = assembleSmtp (pyLower (pyStrip email0))
        (check_dns_mx denv (emailDomain (pyLower (pyStrip email0)))).mx_records smtpR) := by
  rw [validateEmailT] at hrun
  by_cases hs : validate_syntax (pyLower (pyStrip email0)) = true
  · rw [if_pos hs] at hrun
    cases hsp : splitFirst '@' (pyLower (pyStrip email0)) with
    | none => rw [hsp] at hrun; cases hrun
    | some pr =>
      rw [hsp] at hrun
      by_cases hd : (check_dns_mx denv (emailDomain (pyLower (pyStrip email0)))).valid = true
      · rw [if_pos hd] at hrun
        rcases hsm : check_smtp_deliverabilityT senv (pyLower (pyStrip email0))
            (check_dns_mx denv (emailDomain (pyLower (pyStrip email0)))).mx_records
          with ⟨tr2, o⟩
        rw [hsm] at hrun
        cases o with
        | none => simp at hrun
        | some smtpR =>
          simp only [Option.some.injEq, Prod.mk.injEq] at hrun
          obtain ⟨hr, htr2⟩ := hrun
          refine Or.inr (Or.inr ⟨hd, smtpR, ?_, hr.symm⟩)
          rw [htr2]
      · rw [if_neg hd] at hrun
        simp only [Option.some.injEq, Prod.mk.injEq] at hrun
        rw [Bool.not_eq_true] at hd
        exact Or.inr (Or.inl ⟨hd, hrun.1.symm, hrun.2.symm⟩)
  · rw [if_neg hs] at hrun
    simp only [Option.some.injEq, Prod.mk.injEq] at hrun
    exact Or.inl ⟨hrun.1.symm, hrun.2.symm⟩

/-- A probe result dictionary is classified `Accepted` or `TemporaryFailure`
exactly when its `valid` flag is true. -/
theorem outcome_valid_iff (s : SmtpResult) :
    (s.outcome = ProbeOutcome.accepted ∨ s.outcome = ProbeOutcome.temporaryFailure) ↔
      s.valid = true := by
  rw [SmtpResult.outcome]
  by_cases hv : s.valid = true
  · rw [if_pos hv]
    constructor
    · intro _; exact hv
    · intro _
      by_cases hc : s.smtp_code.isSome = true
      · rw [if_pos hc]; exact Or.inr rfl
      · rw [if_neg hc]; exact Or.inl rfl
  · rw [if_neg hv]
    constructor
    · intro h
      by_cases hc : s.smtp_code.isSome = true
      · rw [if_pos hc] at h
        rcases h with h | h <;> cases h
      · rw [if_neg hc] at h
        rcases h with h | h <;> cases h
    · intro h; exact absurd h hv

/-- C4: for every syntactically valid address whose domain's MX resolution
fails (`NXDOMAIN`, `NoAnswer` — i.e. no MX records — or any other resolver
error, all mapped by the source's `except` clause to the same failure),
`validate_email` records `dnsOk = false` (with the DNS error detail) and the
SMTP Probe Client is never invoked: the SMTP event trace is empty and no
SMTP field of the record is populated. -/
theorem c4_dns_failure_no_probe (denv : DnsEnv) (senv : SmtpEnv) (email0 : List Char)
    (hsyn : validate_syntax (pyLower (pyStrip email0)) = true)
    (hdns : denv (emailDomain (pyLower (pyStrip email0))) = none) :
    validateEmailT denv senv email0 =
      some (⟨pyLower (pyStrip email0), false, ⟨true, false, false⟩,
        ⟨none, some "No MX records found for domain", none, none, none⟩⟩, []) := by
  obtain ⟨pr, hsp⟩ := Option.isSome_iff_exists.mp (validate_syntax_isSome_split hsyn)
  have hd : check_dns_mx denv (emailDomain (pyLower (pyStrip email0))) = ⟨false, []⟩ := by
    rw [check_dns_mx, hdns]
  rw [validateEmailT, if_pos hsyn, hsp, if_neg (by simp [hd])]

/-- Witness for C4 at a concrete environment where every DNS query fails. -/
theorem c4_witness :
    validateEmailT (fun _ => none) (fun _ _ => .connectFail) ['a', '@', 'b', '.', 'c', 'o'] =
      some (⟨pyLower (pyStrip ['a', '@', 'b', '.', 'c', 'o']), false, ⟨true, false, false⟩,
        ⟨none, some "No MX records found for domain", none, none, none⟩⟩, []) :=
  c4_dns_failure_no_probe (fun _ => none) (fun _ _ => .connectFail)
    ['a', '@', 'b', '.', 'c', 'o'] (by decide) rfl

/-- C7: whenever a record produced by `validate_email` stores an MX list, that
list is sorted ascending by priority, ties keep the resolver's original order
(per-priority filters agree with the normalized answer), and every hostname
has its trailing dot stripped. -/
theorem c7_mx_sorted_stable_stripped (denv : DnsEnv) (senv : SmtpEnv)
    (email0 : List Char) (r : ValidationResult) (tr : List ProbeEvent)
    (l : List MxRecord)
    (hrun : validateEmailT denv senv email0 = some (r, tr))
    (hl : r.details.mx_records = some l) :
    List.Pairwise (fun x y => x.priority ≤ y.priority) l ∧
    (∀ m ∈ l, (m.exchange).getLast? ≠ some '.') ∧
    ∃ ans, denv (emailDomain (pyLower (pyStrip email0))) = some ans ∧
      ∀ p, l.filter (fun m => m.priority == p) =
        (ans.map fun a => MxRecord.mk a.1 (rstripDots a.2)).filter
          (fun m => m.priority == p) := by
  rcases validateEmailT_shape denv senv email0 r tr hrun with
    ⟨hr, -⟩ | ⟨-, hr, -⟩ | ⟨hd, smtpR, -, hr⟩
  · rw [hr] at hl; cases hl
  · rw [hr] at hl; cases hl
  · rw [hr, assembleSmtp_mx_records, Option.some.injEq] at hl
    obtain ⟨ans, hda, hrec⟩ := check_dns_mx_valid_some hd
    rw [hrec] at hl
    subst hl
    refine ⟨pairwise_sortByPrio _, ?_, ans, hda, fun p => filter_sortByPrio p _⟩
    intro m hm
    have hm' := mem_sortByPrio hm
    obtain ⟨a, -, ha⟩ := List.mem_map.mp hm'
    rw [← ha]
    exact rstripDots_no_trailing_dot a.2

/-- Witness for C7 at a concrete environment: two MX records answered out of
order with trailing dots, stored sorted and stripped. -/
theorem c7_witness :
    List.Pairwise (fun x y => x.priority ≤ y.priority)
      [MxRecord.mk 10 ['m', '1'], MxRecord.mk 20 ['m', '2']] ∧
    (∀ m ∈ [MxRecord.mk 10 ['m', '1'], MxRecord.mk 20 ['m', '2']],
      (m.exchange).getLast? ≠ some '.') ∧
    ∃ ans, (fun _ => some [(20, ['m', '2', '.']), (10, ['m', '1', '.'])] :
        DnsEnv) (emailDomain (pyLower (pyStrip ['a', '@', 'b', '.', 'c', 'o']))) = some ans ∧
      ∀ p, ([MxRecord.mk 10 ['m', '1'], MxRecord.mk 20 ['m', '2']]).filter
          (fun m => m.priority == p) =
        (ans.map fun a => MxRecord.mk a.1 (rstripDots a.2)).filter
          (fun m => m.priority == p) :=
  c7_mx_sorted_stable_stripped
    (fun _ => some [(20, ['m', '2', '.']), (10, ['m', '1', '.'])])
    (fun _ _ => .connectFail) ['a', '@', 'b', '.', 'c', 'o']
    ⟨['a', '@', 'b', '.', 'c', 'o'], false, ⟨true, true, false⟩,
      ⟨none, none, some [MxRecord.mk 10 ['m', '1'], MxRecord.mk 20 ['m', '2']],
        some "Unable to connect to any SMTP server", some unreachableResult⟩⟩
    [.attempt ['m', '1'], .attempt ['m', '2']]
    [MxRecord.mk 10 ['m', '1'], MxRecord.mk 20 ['m', '2']]
    (by decide) rfl

/-- C9: every record produced by `validate_email` satisfies
`overallValid = syntaxOk && dnsOk && smtpOk`, and whenever a probe result is
recorded, `smtpOk` holds exactly when that result classifies as `Accepted`
or `TemporaryFailure`. -/
theorem c9_overall_valid_conjunction (denv : DnsEnv) (senv : SmtpEnv)
    (email0 : List Char) (r : ValidationResult) (tr : List ProbeEvent)
    (hrun : validateEmailT denv senv email0 = some (r, tr)) :
    r.valid = (r.checks.syntaxOk && r.checks.dnsOk && r.checks.smtpOk) ∧
    ∀ pr, r.details.smtp = some pr →
      (r.checks.smtpOk = true ↔
        (pr.outcome = ProbeOutcome.accepted ∨
          pr.outcome = ProbeOutcome.temporaryFailure)) := by
  rcases validateEmailT_shape denv senv email0 r tr hrun with
    ⟨hr, -⟩ | ⟨-, hr, -⟩ | ⟨-, smtpR, -, hr⟩
  · subst hr
    exact ⟨rfl, fun pr h => by cases h⟩
  · subst hr
    exact ⟨rfl, fun pr h => by cases h⟩
  · subst hr
    constructor
    · rw [assembleSmtp_valid, assembleSmtp_checks]
      simp
    · intro pr h
      rw [assembleSmtp_smtp, Option.some.injEq] at h
      subst h
      rw [assembleSmtp_checks]
      exact (outcome_valid_iff smtpR).symm

/-- Witness for C9 at a concrete accepted run. -/
theorem c9_witness :
    (⟨['a', '@', 'b', '.', 'c', 'o'], true, ⟨true, true, true⟩,
        ⟨none, none, some [MxRecord.mk 10 ['m', '1']], none,
          some (acceptedResult ['m', '1'] "ok")⟩⟩ : ValidationResult).valid =
      ((true : Bool) && true && true) ∧
    ∀ pr, (⟨['a', '@', 'b', '.', 'c', 'o'], true, ⟨true, true, true⟩,
        ⟨none, none, some [MxRecord.mk 10 ['m', '1']], none,
          some (acceptedResult ['m', '1'] "ok")⟩⟩ : ValidationResult).details.smtp =
        some pr →
      ((true : Bool) = true ↔
        (pr.outcome = ProbeOutcome.accepted ∨
          pr.outcome = ProbeOutcome.temporaryFailure)) :=
  c9_overall_valid_conjunction (fun _ => some [(10, ['m', '1'])])
    (fun _ _ => .replies 250 (some (250, "ok")) true) ['a', '@', 'b', '.', 'c', 'o']
    ⟨['a', '@', 'b', '.', 'c', 'o'], true, ⟨true, true, true⟩,
      ⟨none, none, some [MxRecord.mk 10 ['m', '1']], none,
        some (acceptedResult ['m', '1'] "ok")⟩⟩
    [.attempt ['m', '1'], .opened ['m', '1'], .closed ['m', '1']]
    (by decide)

/-- Checker for the socket-lifecycle discipline of spec §4.3 step 5: every
`opened` event is immediately followed by the matching `closed` event, so
each successfully opened session is released before the probe does anything
else — in particular before it advances to the next MX server or returns. -/
def sessionsClosed : List ProbeEvent → Bool
  | .opened s :: .closed s' :: rest => decide (s = s') && sessionsClosed rest
  | .opened _ :: _ => false
  | [] => true
  | _ :: rest => sessionsClosed rest

/-- C8: in every execution of the SMTP probe — whatever every server does —
each successfully opened connection is released before the probe advances to
the next MX server or returns: by the `quit()` of lines 68/73 on the paths
that reach it, and by smtplib's own close-before-raise on every exception
path (`SMTP.getreply` and `SMTP.send` call `self.close()` ahead of raising
`SMTPServerDisconnected` into the `except` of lines 98-99).  The probe never
leaks an open socket. -/
theorem c8_every_opened_connection_closed (senv : SmtpEnv) (email : List Char)
    (mxs : List MxRecord) :
    sessionsClosed (probeLoop senv email mxs).1 = true ∧
    sessionsClosed (check_smtp_deliverabilityT senv email mxs).1 = true := by
  have hloop : ∀ l : List MxRecord, sessionsClosed (probeLoop senv email l).1 = true := by
    intro l
    induction l with
    | nil => rfl
    | cons mx rest ih =>
      rw [probeLoop]
      cases senv email mx.exchange with
      | connectFail => simpa [sessionsClosed] using ih
      | failBeforeMail => simpa [sessionsClosed] using ih
      | replies mailCode rcptReply quitOk =>
        by_cases hmc : mailCode = 250
        · cases rcptReply with
          | none => simpa [hmc, sessionsClosed] using ih
          | some cm =>
            obtain ⟨code, msg⟩ := cm
            cases quitOk with
            | false => simpa [hmc, sessionsClosed] using ih
            | true =>
              by_cases h1 : code = 250
              · simp [hmc, h1, sessionsClosed]
              · by_cases h2 : code = 550
                · simp [hmc, h1, h2, sessionsClosed]
                · by_cases h3 : code = 451 ∨ code = 452
                  · simp [hmc, h1, h2, h3, sessionsClosed]
                  · simp [hmc, h1, h2, h3, sessionsClosed, ih]
        · simpa [hmc, sessionsClosed] using ih
  refine ⟨hloop mxs, ?_⟩
  rw [check_smtp_deliverabilityT]
  by_cases he : mxs.isEmpty
  · rw [if_pos he]
    rfl
  · rw [if_neg he]
    cases hsp : splitFirst '@' email with
    | none => rfl
    | some pr => simpa using hloop mxs

/-- C5 counterexample: `validate_syntax` accepts the string `"a@bc.de\n"`
(Python's `re.match` with a final `$` matches just before a trailing
newline), yet that string is not of the claimed exact form — its last
character `'\n'` belongs to none of the pattern's character classes, and its
final domain label is not made of letters only.  The claim's "accepts
exactly" characterization is therefore false at this input. -/
theorem c5_counterexample :
    validate_syntax ['a', '@', 'b', 'c', '.', 'd', 'e', '\n'] = true ∧
    ¬ SpecSyntaxForm ['a', '@', 'b', 'c', '.', 'd', 'e', '\n'] :=
  ⟨by decide, fun h => specSyntaxForm_no_newline h (by decide)⟩
